import Mathlib

/-!
Shallow embedding of `litex/soc/cores/cpu/openpiton/core.py` (the OpenPiton
CPU integration shim) and of the bus-bridge design it instantiates, together
with theorems settling the specification claims about it.

Everything that appears literally in `core.py` (bus widths, address-decoder
predicates, the read-data `Replicate` wiring, the peripheral/memory bus lists,
the `WaitTimer(5000)` reset sequencing, the per-adapter reset wiring) is
embedded from the source.  The bodies of the generic interconnect primitives
(`axi.AXIDecoder`, `axi.AXI2Wishbone`, `AXIInterface.connect`) live elsewhere
in the repository and are not part of the provided sources; where a claim
depends on them they are modelled from the specification, with a doc comment
saying so.
-/

namespace OpenPiton

/-- Fuel-driven helper for `log2_int` (structural recursion so the kernel
can evaluate it). -/
def log2_int_aux : Nat → Nat → Nat
  | _, 0 => 0
  | 0, _ => 0
  | fuel + 1, n => if n ≤ 1 then 0 else 1 + log2_int_aux fuel (n / 2)

/-- migen's `log2_int`: the base-2 logarithm of a power of two
(`log2_int(64) = 6`).  `core.py` only applies it to the exact powers of two
`512 // 8 = 64` and `32 // 8 = 4`. -/
def log2_int (n : Nat) : Nat := log2_int_aux n n

/-- Class attribute `data_width = 512` (`core.py` line 28). -/
def data_width : Nat := 512

/-- Class attribute `addr_width = 64` (`core.py` line 29). -/
def addr_width : Nat := 64

/-! ### Region decoder (`core.py` lines 178-183)

Source:
```
op2litex_decoder = ResetInserter()(
    axi.AXIDecoder(mem_axi, [
        (lambda addr: ~addr[31-log2_int(mem_axi.data_width//8)], mem_axi_litex),
        (lambda addr: addr[31-log2_int(mem_axi.data_width//8)], io_axi_litex)]))
```
The two predicate lambdas are embedded below exactly as written: each tests
bit `31 - log2_int(512 // 8) = 25` of the address value the decoder presents
to it. -/

/-- The bit index tested by the decoder predicates:
`31 - log2_int(data_width // 8) = 31 - 6 = 25` (`core.py` lines 180-181). -/
def decoder_bit : Nat := 31 - log2_int (data_width / 8)

/-- Predicate of the memory region entry (`core.py` line 180):
`lambda addr: ~addr[31-log2_int(mem_axi.data_width//8)]` — true when the
tested bit of the presented address is 0. -/
def mem_pred (a : Nat) : Bool := !(a.testBit decoder_bit)

/-- Predicate of the I/O region entry (`core.py` line 181):
`lambda addr: addr[31-log2_int(mem_axi.data_width//8)]` — true when the
tested bit of the presented address is 1. -/
def io_pred (a : Nat) : Bool := a.testBit decoder_bit

/-- The two outbound channels of the decoder: `mem_axi_litex` (the memory
region, the spec's `regionA`) and `io_axi_litex` (the I/O region, the spec's
`regionB`). -/
inductive Region where
  | regionA
  | regionB
deriving DecidableEq

/-- Modelled from the spec: the body of `axi.AXIDecoder` is repository code
outside the provided sources.  Per §4.1, for each address-phase beat it
"evaluates predicates in list order and forwards the entire transaction ...
to the first matching outbound channel", returning no channel
(`RoutingError`) when no predicate matches. -/
def decodeFirst {α : Type} (regions : List ((Nat → Bool) × α)) (addr : Nat) :
    Option α :=
  match regions with
  | [] => none
  | (p, r) :: rest => if p addr then some r else decodeFirst rest addr

/-- Modelled from the spec: the address value `AXIDecoder` presents to the
region predicates.  Scenario 1 fixes the composite behaviour of the source's
predicate table (which tests bit `31 - log2_int(data_width//8)` of the
presented value) to `addr[31]` of the transaction's byte address, so the
decoder presents the beat-aligned word address: the byte address divided by
the bus width in bytes (`2 ^ log2_int (data_width / 8)` = 64 bytes). -/
def word_addr (addr : Nat) : Nat := addr / 2 ^ log2_int (data_width / 8)

/-- The decoder's ordered region table (`core.py` lines 180-181). -/
def op2litex_regions : List ((Nat → Bool) × Region) :=
  [(mem_pred, Region.regionA), (io_pred, Region.regionB)]

/-- Routing decision of `op2litex_decoder` for a transaction byte address. -/
def op2litex_decode (addr : Nat) : Option Region :=
  decodeFirst op2litex_regions (word_addr addr)

theorem decoder_bit_eq : decoder_bit = 25 := by decide

theorem word_addr_testBit (a : Nat) :
    (word_addr a).testBit decoder_bit = a.testBit 31 := by
  have h6 : log2_int (data_width / 8) = 6 := by decide
  rw [word_addr, h6, decoder_bit_eq]
  rw [Nat.testBit_to_div_mod, Nat.testBit_to_div_mod,
    Nat.div_div_eq_div_mul]
  norm_num [← pow_add]

theorem op2litex_decode_eq (a : Nat) :
    op2litex_decode a =
      if a.testBit 31 then some Region.regionB else some Region.regionA := by
  unfold op2litex_decode op2litex_regions
  simp only [decodeFirst, mem_pred, io_pred, word_addr_testBit]
  cases h : a.testBit 31 <;> simp [h]

/-- Claim C1: the region decoder routes every transaction address by the top
region bit: addresses with bit 31 = 0 go to the memory channel (`regionA`),
addresses with bit 31 = 1 go to the I/O channel (`regionB`); in particular
`0x1000_0000` routes to the memory channel and `0x9000_0000` to the I/O
channel; and in general the decoder forwards the transaction to the first
predicate in list order that matches. -/
theorem op2litex_decoder_routes_by_bit31 :
    (∀ a : Nat,
      (op2litex_decode a = some Region.regionA ↔ a.testBit 31 = false) ∧
      (op2litex_decode a = some Region.regionB ↔ a.testBit 31 = true)) ∧
    op2litex_decode 0x10000000 = some Region.regionA ∧
    op2litex_decode 0x90000000 = some Region.regionB ∧
    (∀ (α : Type) (p q : Nat → Bool) (r₁ r₂ : α) (a : Nat),
      p a = true → decodeFirst [(p, r₁), (q, r₂)] a = some r₁) := by
  refine ⟨?_, by decide, by decide, ?_⟩
  · intro a
    rw [op2litex_decode_eq]
    cases h : a.testBit 31 <;> simp
  · intro α p q r₁ r₂ a hp
    simp [decodeFirst, hp]

/-- Witness for C1: the general parts applied at concrete inputs. -/
theorem op2litex_decoder_routes_by_bit31_witness :
    (op2litex_decode 0x10000000 = some Region.regionA ↔
      (0x10000000 : Nat).testBit 31 = false) ∧
    decodeFirst [(fun _ => true, Region.regionA),
      (fun _ => true, Region.regionB)] 7 = some Region.regionA :=
  ⟨(op2litex_decoder_routes_by_bit31.1 0x10000000).1,
   op2litex_decoder_routes_by_bit31.2.2.2 Region (fun _ => true)
     (fun _ => true) Region.regionA Region.regionB 7 rfl⟩

/-- Claim C4: for every address, exactly one of the two configured region
predicates matches (they are exhaustive and mutually exclusive), and the
decoder therefore always selects a region — the `RoutingError` branch for an
unmatched address is unreachable under this configuration. -/
theorem op2litex_predicates_exhaustive_exclusive :
    (∀ a : Nat,
      (mem_pred a = true ∧ io_pred a = false) ∨
      (mem_pred a = false ∧ io_pred a = true)) ∧
    (∀ a : Nat, (op2litex_decode a).isSome = true) := by
  constructor
  · intro a
    unfold mem_pred io_pred
    cases h : a.testBit decoder_bit <;> simp [h]
  · intro a
    rw [op2litex_decode_eq]
    cases h : a.testBit 31 <;> simp [h]

/-! ### Width adaptation: I/O read-response upcast (`core.py` lines 197-200)

Source:
```
self.comb += [
    io_axi_litex.connect(io_axi_down_conv),
    io_axi_litex.r.data[32:].eq(Replicate(io_axi_down_conv.r.data, 512//32))
]
```
migen comb statements execute in order with last-write-wins per bit, and
`.eq` truncates a right-hand side wider than its target.  So the 512-bit
read data seen by the wide channel is: bits `[0:32]` the narrow response
value (pass-through of `r.data`), bits `[32:512]` the 512-bit replication of
the narrow value truncated to 480 bits. -/

/-- The spec's `wide_width` for the I/O path (`512`). -/
def W_wide : Nat := 512

/-- The spec's `narrow_width` for the I/O path (`32`). -/
def W_narrow : Nat := 32

/-- migen's `Replicate(v, n)` on a `w`-bit value `v`: `n` copies of
`v mod 2^w` concatenated, copy 0 in the least-significant bits. -/
def Replicate (v w : Nat) : Nat → Nat
  | 0 => 0
  | n + 1 => v % 2 ^ w + 2 ^ w * Replicate v w n

/-- Lane `k` (32 bits wide) of a value. -/
def lane (x k : Nat) : Nat := x / 2 ^ (32 * k) % 2 ^ 32

/-- The 512-bit read data driven onto `io_axi_litex.r.data` when the narrow
converted bus returns the 32-bit value `v` (`core.py` lines 197-200): the
pass-through of `v` on bits `[0:32]`, plus `Replicate(v, 16)` truncated to
the 480-bit slice `[32:512]`. -/
def wide_r_data (v : Nat) : Nat :=
  v % 2 ^ 32 + 2 ^ 32 * (Replicate v 32 (512 / 32) % 2 ^ 480)

theorem replicate_lt (v w n : Nat) : Replicate v w n < 2 ^ (w * n) := by
  induction n with
  | zero => simp [Replicate]
  | succ n ih =>
    have hv : v % 2 ^ w < 2 ^ w := Nat.mod_lt _ (Nat.pos_pow_of_pos w (by omega))
    calc Replicate v w (n + 1) = v % 2 ^ w + 2 ^ w * Replicate v w n := rfl
      _ < 2 ^ w + 2 ^ w * Replicate v w n := by omega
      _ = 2 ^ w * (Replicate v w n + 1) := by ring
      _ ≤ 2 ^ w * 2 ^ (w * n) := by
          exact Nat.mul_le_mul_left _ (by omega)
      _ = 2 ^ (w * (n + 1)) := by rw [← pow_add]; ring_nf

theorem replicate_succ_high (v w n : Nat) :
    Replicate v w (n + 1) = Replicate v w n + v % 2 ^ w * 2 ^ (w * n) := by
  induction n with
  | zero => simp [Replicate]
  | succ n ih =>
    have hp : (2 : Nat) ^ (w * (n + 1)) = 2 ^ (w * n) * 2 ^ w := by
      rw [mul_add, mul_one, pow_add]
    show v % 2 ^ w + 2 ^ w * Replicate v w (n + 1) =
      (v % 2 ^ w + 2 ^ w * Replicate v w n) + v % 2 ^ w * 2 ^ (w * (n + 1))
    rw [ih, hp]
    ring

theorem replicate_div (v w : Nat) :
    ∀ k n : Nat, k ≤ n →
      Replicate v w n / 2 ^ (w * k) = Replicate v w (n - k) := by
  intro k
  induction k with
  | zero => intro n _; simp
  | succ k ih =>
    intro n hk
    obtain ⟨m, rfl⟩ : ∃ m, n = m + 1 := ⟨n - 1, by omega⟩
    have hstep : Replicate v w (m + 1) / 2 ^ w = Replicate v w m := by
      have hv : v % 2 ^ w < 2 ^ w := Nat.mod_lt _ (Nat.pos_pow_of_pos w (by omega))
      calc Replicate v w (m + 1) / 2 ^ w
          = (v % 2 ^ w + Replicate v w m * 2 ^ w) / 2 ^ w := by
            rw [Replicate]; ring_nf
        _ = v % 2 ^ w / 2 ^ w + Replicate v w m := by
            rw [Nat.add_mul_div_right _ _ (Nat.pos_pow_of_pos w (by omega))]
        _ = Replicate v w m := by rw [Nat.div_eq_of_lt hv]; omega
    calc Replicate v w (m + 1) / 2 ^ (w * (k + 1))
        = Replicate v w (m + 1) / (2 ^ w * 2 ^ (w * k)) := by
          rw [← pow_add]; ring_nf
      _ = Replicate v w (m + 1) / 2 ^ w / 2 ^ (w * k) := by
          rw [Nat.div_div_eq_div_mul]
      _ = Replicate v w m / 2 ^ (w * k) := by rw [hstep]
      _ = Replicate v w (m - k) := ih m (by omega)
      _ = Replicate v w (m + 1 - (k + 1)) := by
          have he : m + 1 - (k + 1) = m - k := by omega
          rw [he]

theorem replicate_mod_w (v w m : Nat) :
    Replicate v w (m + 1) % 2 ^ w = v % 2 ^ w := by
  rw [Replicate, Nat.add_mul_mod_self_left, Nat.mod_mod_of_dvd _ dvd_rfl]

theorem wide_r_data_eq (v : Nat) : wide_r_data v = Replicate v 32 16 := by
  have e : (32 : Nat) * 15 = 480 := by norm_num
  have h15 : Replicate v 32 15 < 2 ^ 480 := e ▸ replicate_lt v 32 15
  have hh : Replicate v 32 16 = Replicate v 32 15 + v % 2 ^ 32 * 2 ^ 480 := by
    have h := replicate_succ_high v 32 15
    rw [e] at h
    exact h
  have h16 : Replicate v 32 16 % 2 ^ 480 = Replicate v 32 15 := by
    rw [hh, Nat.add_mul_mod_self_right, Nat.mod_eq_of_lt h15]
  show v % 2 ^ 32 + 2 ^ 32 * (Replicate v 32 16 % 2 ^ 480) = _
  rw [h16]
  rfl

/-- Claim C2: with the replicate upcast policy (`wide_width = 512`,
`narrow_width = 32`), for every narrow 32-bit response value `v`, every one
of the 16 32-bit lanes of the wide read response equals `v`. -/
theorem io_upcast_read_replicates (v k : Nat) (hv : v < 2 ^ 32)
    (hk : k < 16) : lane (wide_r_data v) k = v := by
  rw [wide_r_data_eq, lane, replicate_div v 32 k 16 (by omega)]
  obtain ⟨m, hm⟩ : ∃ m, 16 - k = m + 1 := ⟨15 - k, by omega⟩
  rw [hm, replicate_mod_w, Nat.mod_eq_of_lt hv]

/-- Witness for C2: the narrow value `0xDEADBEEF` fills lane 5 (and every
other lane) of the wide response. -/
theorem io_upcast_read_replicates_witness :
    lane (wide_r_data 0xDEADBEEF) 5 = 0xDEADBEEF :=
  io_upcast_read_replicates 0xDEADBEEF 5 (by decide) (by decide)

/-! ### Width adaptation: wide→narrow write path

`core.py` routes I/O writes through `io_axi_litex` (512-bit) into
`io_axi_down_conv` (32-bit, line 86).  The body of the width down-conversion
is repository interconnect code outside the provided sources, so the write
down-cast is modelled from the spec (§4.2). -/

/-- One beat of the wide (512-bit) channel. -/
structure WideBeat where
  addr : Nat
  id : Nat
  data : Nat
  strb : Nat
  last : Bool
deriving DecidableEq

/-- One beat of the narrow (32-bit) channel. -/
structure NarrowBeat where
  addr : Nat
  id : Nat
  data : Nat
  strb : Nat
  last : Bool
deriving DecidableEq, Inhabited

/-- Modelled from the spec: the `i`-th narrow beat produced from one wide
write beat by the wide→narrow down-conversion (§4.2): data lane `i` and the
matching strobe slice, address incremented by `W_narrow` bytes per beat,
`id` preserved, `last` only on the final emitted beat of the final wide
beat. -/
def narrowBeat (b : WideBeat) (i : Nat) : NarrowBeat :=
  { addr := b.addr + W_narrow / 8 * i
    id := b.id
    data := b.data / 2 ^ (W_narrow * i) % 2 ^ W_narrow
    strb := b.strb / 2 ^ (W_narrow / 8 * i) % 2 ^ (W_narrow / 8)
    last := b.last && (i + 1 == W_wide / W_narrow) }

/-- Modelled from the spec: the wide→narrow write down-conversion splits
each wide beat into `W_wide / W_narrow` narrow beats (§4.2). -/
def downcastWrite (b : WideBeat) : List NarrowBeat :=
  (List.range (W_wide / W_narrow)).map (narrowBeat b)

theorem div_pow_mod_pow (x p q r s : Nat) (h : r + s ≤ q) :
    x / 2 ^ p % 2 ^ q / 2 ^ r % 2 ^ s = x / 2 ^ (p + r) % 2 ^ s := by
  rw [Nat.div_mod_eq_mod_mul_div x (2 ^ p) (2 ^ q), ← pow_add,
    Nat.div_div_eq_div_mul, ← pow_add,
    Nat.div_mod_eq_mod_mul_div (x % 2 ^ (p + q)) (2 ^ (p + r)) (2 ^ s),
    ← pow_add,
    Nat.mod_mod_of_dvd x (pow_dvd_pow 2 (show p + r + s ≤ p + q by omega)),
    Nat.div_mod_eq_mod_mul_div x (2 ^ (p + r)) (2 ^ s), ← pow_add]

theorem testBit_div_pow (x k i : Nat) :
    (x / 2 ^ k).testBit i = x.testBit (k + i) := by
  rw [Nat.testBit_to_div_mod, Nat.testBit_to_div_mod,
    Nat.div_div_eq_div_mul, ← pow_add]

theorem downcast_beat_getD (b : WideBeat) (i : Nat) (h : i < 16) :
    (downcastWrite b).getD i default = narrowBeat b i := by
  have h16 : W_wide / W_narrow = 16 := by decide
  rw [downcastWrite, h16, List.getD_eq_getElem?_getD, List.getElem?_map,
    List.getElem?_range h]
  rfl

/-- Claim C3: the downcast write path (`wide_width = 512`,
`narrow_width = 32`) splits every wide write beat into exactly 16 narrow
beats; beat `i` carries data lane `i` and the matching 4-bit strobe slice,
its address is the wide address plus `4 * i` bytes, `last` is set only on
the 16th emitted beat (for the final wide beat), and every strobe-enabled
byte of the wide beat appears, with its strobe bit, on exactly the narrow
beat covering it — no enabled byte is dropped. -/
theorem downcast_write_splits (b : WideBeat) :
    (downcastWrite b).length = 16 ∧
    (∀ i : Nat, i < 16 →
      (downcastWrite b).getD i default = narrowBeat b i ∧
      (narrowBeat b i).addr = b.addr + 4 * i ∧
      (narrowBeat b i).data = b.data / 2 ^ (32 * i) % 2 ^ 32 ∧
      (narrowBeat b i).strb = b.strb / 2 ^ (4 * i) % 2 ^ 4) ∧
    ((narrowBeat b 15).last = b.last ∧
      (∀ i : Nat, i < 15 → (narrowBeat b i).last = false)) ∧
    (∀ j : Nat, j < 64 →
      (narrowBeat b (j / 4)).strb.testBit (j % 4) = b.strb.testBit j ∧
      (narrowBeat b (j / 4)).data / 2 ^ (8 * (j % 4)) % 2 ^ 8 =
        b.data / 2 ^ (8 * j) % 2 ^ 8) := by
  refine ⟨rfl, ?_, ⟨?_, ?_⟩, ?_⟩
  · intro i hi
    refine ⟨downcast_beat_getD b i hi, rfl, rfl, rfl⟩
  · show (b.last && (15 + 1 == W_wide / W_narrow)) = b.last
    have h16 : (15 + 1 == W_wide / W_narrow) = true := by decide
    rw [h16, Bool.and_true]
  · intro i hi
    show (b.last && (i + 1 == W_wide / W_narrow)) = false
    have hne : (i + 1 == W_wide / W_narrow) = false := by
      rw [beq_eq_false_iff_ne]
      have h16 : W_wide / W_narrow = 16 := by decide
      omega
    rw [hne, Bool.and_false]
  · intro j hj
    constructor
    · show (b.strb / 2 ^ (W_narrow / 8 * (j / 4)) %
        2 ^ (W_narrow / 8)).testBit (j % 4) = b.strb.testBit j
      have hn : W_narrow / 8 = 4 := by decide
      rw [hn, Nat.testBit_mod_two_pow, testBit_div_pow]
      have hm : j % 4 < 4 := Nat.mod_lt _ (by omega)
      have he : 4 * (j / 4) + j % 4 = j := Nat.div_add_mod j 4
      rw [he]
      simp [hm]
    · show b.data / 2 ^ (W_narrow * (j / 4)) % 2 ^ W_narrow /
        2 ^ (8 * (j % 4)) % 2 ^ 8 = b.data / 2 ^ (8 * j) % 2 ^ 8
      have hn : W_narrow = 32 := by decide
      rw [hn, div_pow_mod_pow _ _ _ _ _ (by omega)]
      have he : 32 * (j / 4) + 8 * (j % 4) = 8 * j := by omega
      rw [he]

/-- Witness for C3: the split of a concrete all-ones-strobe wide beat,
checked on beat 3 and byte 13. -/
theorem downcast_write_splits_witness :
    (downcastWrite ⟨0x80000000, 2, 0, 2 ^ 64 - 1, true⟩).getD 3 default =
      narrowBeat ⟨0x80000000, 2, 0, 2 ^ 64 - 1, true⟩ 3 ∧
    (narrowBeat ⟨0x80000000, 2, 0, 2 ^ 64 - 1, true⟩ 3).addr =
      0x80000000 + 4 * 3 ∧
    (narrowBeat ⟨0x80000000, 2, 0, 2 ^ 64 - 1, true⟩ (13 / 4)).strb.testBit
        (13 % 4) =
      (2 ^ 64 - 1 : Nat).testBit 13 :=
  ⟨((downcast_write_splits ⟨0x80000000, 2, 0, 2 ^ 64 - 1, true⟩).2.1 3
      (by decide)).1,
   ((downcast_write_splits ⟨0x80000000, 2, 0, 2 ^ 64 - 1, true⟩).2.1 3
      (by decide)).2.1,
   ((downcast_write_splits ⟨0x80000000, 2, 0, 2 ^ 64 - 1, true⟩).2.2.2 13
      (by decide)).1⟩

/-- Modelled from the spec: the narrow→wide read-response upcast with the
`replicate` policy (§4.2): the narrow response value fills every
`W_wide / W_narrow` lane, and transaction `id` and burst `last` are
preserved across the width change. -/
def upcastRead (nb : NarrowBeat) : WideBeat :=
  { addr := nb.addr
    id := nb.id
    data := Replicate nb.data W_narrow (W_wide / W_narrow)
    strb := 0
    last := nb.last }

/-- Claim C8: the width-adaptation stage preserves each transaction's `id`
and burst `last` marking: every narrow beat produced from a wide write beat
carries the upstream `id` (so the 16 emitted beats correlate to exactly one
transaction), the final emitted beat of a `last` wide beat carries `last`,
and the upcast read response preserves `id` and `last` unchanged. -/
theorem width_adapter_preserves_id_last :
    (∀ (b : WideBeat) (i : Nat), i < 16 → (narrowBeat b i).id = b.id) ∧
    (∀ b : WideBeat,
      (downcastWrite b).map NarrowBeat.id = List.replicate 16 b.id) ∧
    (∀ b : WideBeat, b.last = true → (narrowBeat b 15).last = true) ∧
    (∀ nb : NarrowBeat,
      (upcastRead nb).id = nb.id ∧ (upcastRead nb).last = nb.last) := by
  refine ⟨fun b i _ => rfl, ?_, ?_, fun nb => ⟨rfl, rfl⟩⟩
  · intro b
    rw [List.eq_replicate_iff]
    constructor
    · rfl
    · intro x hx
      rw [List.mem_map] at hx
      obtain ⟨nb, _, rfl⟩ := hx
      rw [downcastWrite] at *
      rename_i hnb
      rw [List.mem_map] at hnb
      obtain ⟨i, _, rfl⟩ := hnb
      rfl
  · intro b hb
    show (b.last && (15 + 1 == W_wide / W_narrow)) = true
    rw [hb]
    decide

/-- Witness for C8: `id` and final-beat `last` on a concrete wide beat. -/
theorem width_adapter_preserves_id_last_witness :
    (narrowBeat ⟨0, 9, 0, 0, true⟩ 7).id = 9 ∧
    (narrowBeat ⟨0, 9, 0, 0, true⟩ 15).last = true :=
  ⟨width_adapter_preserves_id_last.1 ⟨0, 9, 0, 0, true⟩ 7 (by decide),
   width_adapter_preserves_id_last.2.2.1 ⟨0, 9, 0, 0, true⟩ rfl⟩

/-! ### Buses exposed to the host SoC (`core.py` lines 67-92)

Source:
```
self.mem_wb = mem_wb = wishbone.Interface(
    data_width=self.data_width, adr_width=64-log2_int(self.data_width//8))
self.io_wb = io_wb = wishbone.Interface(data_width=32, adr_width=64-log2_int(32//8))
...
self.periph_buses = [mem_wb, io_wb]
self.memory_buses = []
``` -/

/-- A Wishbone interface, reduced to the width parameters `core.py` sets. -/
structure WishboneInterface where
  data_width : Nat
  adr_width : Nat
deriving DecidableEq

/-- Data width of the upstream AXI channel `mem_axi` (`core.py` lines
67-68): `data_width = self.data_width = 512`. -/
def mem_axi_data_width : Nat := data_width

/-- The memory-region Wishbone bus (`core.py` lines 71-72). -/
def mem_wb : WishboneInterface :=
  ⟨data_width, 64 - log2_int (data_width / 8)⟩

/-- The I/O-region Wishbone bus (`core.py` line 75). -/
def io_wb : WishboneInterface := ⟨32, 64 - log2_int (32 / 8)⟩

/-- List `periph_buses = [mem_wb, io_wb]` (`core.py` line 90). -/
def periph_buses : List WishboneInterface := [mem_wb, io_wb]

/-- List `memory_buses = []` (`core.py` line 92). -/
def memory_buses : List WishboneInterface := []

/-- Counterexample to claim C7 as stated: the memory-region downstream
channel has data width 512, equal to — not strictly narrower than — the
upstream channel's 512 bits. -/
theorem downstream_not_all_narrower :
    mem_wb ∈ periph_buses ∧ ¬ mem_wb.data_width < mem_axi_data_width := by
  decide

/-- Claim C7 (amended): every downstream channel's data width is at most
the upstream channel's 512 bits; the I/O-region channel (32 bits) is
strictly narrower, while the memory-region channel has the same 512-bit
width as the upstream channel. -/
theorem downstream_widths :
    (∀ wb ∈ periph_buses, wb.data_width ≤ mem_axi_data_width) ∧
    io_wb.data_width < mem_axi_data_width ∧
    mem_wb.data_width = mem_axi_data_width ∧
    mem_wb.data_width = 512 ∧ io_wb.data_width = 32 := by
  decide

/-- Witness for C7 (amended): the width bound applied to the I/O bus. -/
theorem downstream_widths_witness :
    io_wb.data_width ≤ mem_axi_data_width :=
  downstream_widths.1 io_wb (by decide)

/-- Claim C10: the bridge exposes exactly two downstream channels, both as
peripheral buses — the 512-bit memory-region Wishbone bus and the 32-bit
I/O-region Wishbone bus — and exposes no direct memory buses
(`memory_buses` is empty). -/
theorem exposed_buses :
    periph_buses = [mem_wb, io_wb] ∧
    periph_buses.length = 2 ∧
    mem_wb.data_width = 512 ∧
    io_wb.data_width = 32 ∧
    memory_buses = [] := by
  decide

/-! ### CPU reset sequencing (`core.py` lines 94-96, 105, 182, 188, 204)

Source:
```
wait_timer = WaitTimer(5000)
self.submodules += wait_timer
self.comb += wait_timer.wait.eq(1)
...
i_sys_rst_n=wait_timer.done,  # Active Low.
...
self.comb += op2litex_decoder.reset.eq(ResetSignal() | self.reset)
self.comb += mem_bus_a2w.reset.eq(ResetSignal() | self.reset)
self.comb += io_bus_a2w.reset.eq(ResetSignal() | self.reset)
``` -/

/-- Count register of migen `WaitTimer(t)` with `wait` tied to 1
(`core.py` line 96): reset value `t`, decremented once per clock cycle
until it reaches 0 (migen.genlib.misc.WaitTimer semantics). -/
def waitTimerCount (t : Nat) : Nat → Nat
  | 0 => t
  | n + 1 => if waitTimerCount t n = 0 then 0 else waitTimerCount t n - 1

/-- migen `WaitTimer.done`: the count register has reached 0. -/
def waitTimerDone (t n : Nat) : Bool := waitTimerCount t n == 0

/-- Wiring `i_sys_rst_n = wait_timer.done` (`core.py` line 105): the CPU core's
active-low reset input at cycle `n`.  It is a function of the cycle count
alone; the global and CPU-local reset signals are parameters only to record
that the wiring does not use them. -/
def cpu_sys_rst_n (glob cpu : Bool) (n : Nat) : Bool := waitTimerDone 5000 n

/-- Wiring `op2litex_decoder.reset = ResetSignal() | self.reset` (line 182). -/
def op2litex_decoder_reset (glob cpu : Bool) : Bool := glob || cpu

/-- Wiring `mem_bus_a2w.reset = ResetSignal() | self.reset` (line 188). -/
def mem_bus_a2w_reset (glob cpu : Bool) : Bool := glob || cpu

/-- Wiring `io_bus_a2w.reset = ResetSignal() | self.reset` (line 204). -/
def io_bus_a2w_reset (glob cpu : Bool) : Bool := glob || cpu

theorem waitTimerCount_eq (t n : Nat) : waitTimerCount t n = t - n := by
  induction n with
  | zero => rfl
  | succ n ih =>
    rw [waitTimerCount, ih]
    split <;> omega

/-- Claim C9: the CPU core's active-low reset input is held asserted for
the first 5000 clock cycles and is then released permanently
(`sys_rst_n` at cycle `n` is high exactly when `5000 ≤ n`); it does not
depend on the global or CPU-local reset signals, while the CPU-local reset
drives exactly the three bridge adapters (each reset by global OR local
reset). -/
theorem cpu_reset_sequencing :
    (∀ (glob cpu : Bool) (n : Nat),
      cpu_sys_rst_n glob cpu n = decide (5000 ≤ n)) ∧
    (∀ (glob glob' cpu cpu' : Bool) (n : Nat),
      cpu_sys_rst_n glob cpu n = cpu_sys_rst_n glob' cpu' n) ∧
    (∀ glob cpu : Bool,
      op2litex_decoder_reset glob cpu = (glob || cpu) ∧
      mem_bus_a2w_reset glob cpu = (glob || cpu) ∧
      io_bus_a2w_reset glob cpu = (glob || cpu)) := by
  have key : ∀ (glob cpu : Bool) (n : Nat),
      cpu_sys_rst_n glob cpu n = decide (5000 ≤ n) := by
    intro glob cpu n
    rw [cpu_sys_rst_n, waitTimerDone, waitTimerCount_eq]
    by_cases h : 5000 ≤ n
    · have h0 : 5000 - n = 0 := by omega
      simp [h, h0]
    · have h0 : 5000 - n ≠ 0 := by omega
      simp [h, h0]
  exact ⟨key, fun g g' c c' n => by rw [key, key],
    fun glob cpu => ⟨rfl, rfl, rfl⟩⟩

/-! ### Protocol converter state machine (spec §4.3, §5)

`core.py` wraps each of the three bridge stages in `ResetInserter()` and
drives the inserted reset with `ResetSignal() | self.reset` (lines 178-205).
The bodies of `axi.AXI2Wishbone` and `ResetInserter` are repository
interconnect code outside the provided sources, so the converter's
per-transaction state machine is modelled from the spec. -/

/-- Converter states (§4.3). -/
inductive ConvState where
  | idle
  | addrAccepted
  | dataTransfer
  | respPending
  | complete
deriving DecidableEq

/-- The per-transaction attributes the converter tracks. -/
structure Txn where
  id : Nat
  isWrite : Bool
deriving DecidableEq

/-- Converter state: control state, in-flight transaction (exclusively
owned while held), and the downstream-acknowledge wait counter. -/
structure ConvS where
  st : ConvState
  inflight : Option Txn
  timer : Nat
deriving DecidableEq

/-- Inputs observed by the converter in one tick: the inserted reset, an
offered address-phase beat, the `last` write-data beat, and the downstream
acknowledge. -/
structure ConvIn where
  reset : Bool
  newTxn : Option Txn
  dataLast : Bool
  downAck : Bool
deriving DecidableEq

/-- Upstream-visible completions of the converter. -/
inductive ConvResp where
  | complete (id : Nat)
  | downstreamTimeout (id : Nat)
deriving DecidableEq

/-- The transaction id a response is correlated to. -/
def ConvResp.rid : ConvResp → Nat
  | .complete i => i
  | .downstreamTimeout i => i

/-- The state `ResetInserter` forces: `IDLE`, no in-flight transaction. -/
def resetState : ConvS := ⟨ConvState.idle, none, 0⟩

/-- Modelled from the spec: one clock tick of the protocol converter
(§4.3): `IDLE → ADDR_ACCEPTED → DATA_TRANSFER → RESP_PENDING → COMPLETE`,
with the inserted reset forcing `IDLE` and discarding the in-flight
transaction, and the `RESP_PENDING` wait bounded by `timeout_ticks = T`,
surfacing `DownstreamTimeout` when the bound is reached (§5, §4.3). -/
def convStep (T : Nat) (s : ConvS) (inp : ConvIn) :
    ConvS × Option ConvResp :=
  if inp.reset then (resetState, none)
  else
    match s.st with
    | ConvState.idle =>
      match inp.newTxn with
      | none => (resetState, none)
      | some t => (⟨ConvState.addrAccepted, some t, 0⟩, none)
    | ConvState.addrAccepted =>
      match s.inflight with
      | none => (resetState, none)
      | some t =>
        if t.isWrite then (⟨ConvState.dataTransfer, some t, 0⟩, none)
        else (⟨ConvState.respPending, some t, 0⟩, none)
    | ConvState.dataTransfer =>
      if inp.dataLast then (⟨ConvState.respPending, s.inflight, 0⟩, none)
      else (s, none)
    | ConvState.respPending =>
      match s.inflight with
      | none => (resetState, none)
      | some t =>
        if inp.downAck then (⟨ConvState.complete, some t, 0⟩, none)
        else if T ≤ s.timer + 1 then
          (resetState, some (ConvResp.downstreamTimeout t.id))
        else (⟨ConvState.respPending, some t, s.timer + 1⟩, none)
    | ConvState.complete =>
      match s.inflight with
      | none => (resetState, none)
      | some t => (resetState, some (ConvResp.complete t.id))

/-- Run of the converter over a list of per-tick inputs, collecting the
final state and the emitted responses in order. -/
def convRun (T : Nat) (s : ConvS) : List ConvIn → ConvS × List ConvResp
  | [] => (s, [])
  | inp :: rest =>
    ((convRun T (convStep T s inp).1 rest).1,
      match (convStep T s inp).2 with
      | none => (convRun T (convStep T s inp).1 rest).2
      | some r => r :: (convRun T (convStep T s inp).1 rest).2)

theorem convStep_out_from_inflight (T : Nat) (s : ConvS) (inp : ConvIn)
    (r : ConvResp) (h : (convStep T s inp).2 = some r) :
    ∃ t : Txn, s.inflight = some t ∧ r.rid = t.id := by
  obtain ⟨st, inflight, timer⟩ := s
  obtain ⟨res, newTxn, dataLast, downAck⟩ := inp
  cases res with
  | true => simp [convStep] at h
  | false =>
    cases st with
    | idle => cases newTxn <;> simp [convStep] at h
    | addrAccepted =>
      cases inflight with
      | none => simp [convStep] at h
      | some t => cases hw : t.isWrite <;> simp [convStep, hw] at h
    | dataTransfer => cases dataLast <;> simp [convStep] at h
    | respPending =>
      cases inflight with
      | none => simp [convStep] at h
      | some t =>
        cases downAck with
        | true => simp [convStep] at h
        | false =>
          by_cases ht : T ≤ timer + 1
          · simp [convStep, ht] at h
            exact ⟨t, rfl, by rw [← h]; rfl⟩
          · simp [convStep, ht] at h
    | complete =>
      cases inflight with
      | none => simp [convStep] at h
      | some t =>
        simp [convStep] at h
        exact ⟨t, rfl, by rw [← h]; rfl⟩

theorem convStep_inflight_source (T : Nat) (s : ConvS) (inp : ConvIn)
    (t' : Txn) (h : (convStep T s inp).1.inflight = some t') :
    s.inflight = some t' ∨ inp.newTxn = some t' := by
  obtain ⟨st, inflight, timer⟩ := s
  obtain ⟨res, newTxn, dataLast, downAck⟩ := inp
  cases res with
  | true => simp [convStep, resetState] at h
  | false =>
    cases st with
    | idle =>
      cases newTxn with
      | none => simp [convStep, resetState] at h
      | some u =>
        simp [convStep] at h
        right
        rw [h]
    | addrAccepted =>
      cases inflight with
      | none => simp [convStep, resetState] at h
      | some t =>
        cases hw : t.isWrite <;> simp [convStep, hw] at h <;>
          exact Or.inl (by rw [h])
    | dataTransfer =>
      cases dataLast with
      | true =>
        simp [convStep] at h
        exact Or.inl h
      | false =>
        simp [convStep] at h
        exact Or.inl h
    | respPending =>
      cases inflight with
      | none => simp [convStep, resetState] at h
      | some t =>
        cases downAck with
        | true =>
          simp [convStep] at h
          exact Or.inl (by rw [h])
        | false =>
          by_cases ht : T ≤ timer + 1
          · simp [convStep, ht, resetState] at h
          · simp [convStep, ht] at h
            exact Or.inl (by rw [h])
    | complete =>
      cases inflight <;> simp [convStep, resetState] at h

theorem convRun_resp_ids (T : Nat) (P : Nat → Prop) :
    ∀ (l : List ConvIn) (s : ConvS),
      (∀ t : Txn, s.inflight = some t → P t.id) →
      (∀ inp ∈ l, ∀ t : Txn, inp.newTxn = some t → P t.id) →
      ∀ r ∈ (convRun T s l).2, P r.rid := by
  intro l
  induction l with
  | nil =>
    intro s _ _ r hr
    simp [convRun] at hr
  | cons inp rest ih =>
    intro s hs hl r hr
    have hs' : ∀ t : Txn, (convStep T s inp).1.inflight = some t → P t.id := by
      intro t ht
      rcases convStep_inflight_source T s inp t ht with hold | hnew
      · exact hs t hold
      · exact hl inp (List.mem_cons_self inp rest) t hnew
    have hl' : ∀ inp' ∈ rest, ∀ t : Txn, inp'.newTxn = some t → P t.id :=
      fun inp' hmem => hl inp' (List.mem_cons_of_mem inp hmem)
    rw [convRun] at hr
    rcases hout : (convStep T s inp).2 with _ | r₀
    · rw [hout] at hr
      exact ih (convStep T s inp).1 hs' hl' r hr
    · rw [hout] at hr
      rcases List.mem_cons.mp hr with hr0 | hrrest
      · obtain ⟨t, hin, hid⟩ := convStep_out_from_inflight T s inp r₀ hout
        rw [hr0, hid]
        exact hs t hin
      · exact ih (convStep T s inp).1 hs' hl' r hrrest

/-- Claim C5: with the inserted reset asserted (global reset OR the
CPU-local reset, as wired to all three bridge stages), a tick forces the
converter to the `IDLE` state with no in-flight transaction and emits no
completion; from that state, every run whose inputs never offer a
transaction with a given id emits no completion correlated to that id (the
abandoned transaction is never completed); and after reset clears the
converter accepts a new transaction. -/
theorem converter_reset_discards :
    (∀ glob cpu : Bool, cpu = true →
      op2litex_decoder_reset glob cpu = true ∧
      mem_bus_a2w_reset glob cpu = true ∧
      io_bus_a2w_reset glob cpu = true) ∧
    (∀ (T : Nat) (s : ConvS) (inp : ConvIn), inp.reset = true →
      convStep T s inp = (resetState, none)) ∧
    (∀ (T i₀ : Nat) (l : List ConvIn),
      (∀ inp ∈ l, ∀ t : Txn, inp.newTxn = some t → t.id ≠ i₀) →
      ∀ r ∈ (convRun T resetState l).2, r.rid ≠ i₀) ∧
    (∀ (T : Nat) (t : Txn) (inp : ConvIn), inp.reset = false →
      inp.newTxn = some t →
      convStep T resetState inp = (⟨ConvState.addrAccepted, some t, 0⟩, none)) := by
  refine ⟨?_, ?_, ?_, ?_⟩
  · intro glob cpu hc
    subst hc
    simp [op2litex_decoder_reset, mem_bus_a2w_reset, io_bus_a2w_reset]
  · intro T s inp hres
    unfold convStep
    rw [hres]
    simp
  · intro T i₀ l hl r hr
    refine convRun_resp_ids T (fun i => i ≠ i₀) l resetState ?_ hl r hr
    intro t ht
    simp [resetState] at ht
  · intro T t inp hres hnew
    unfold convStep
    rw [hres, hnew]
    simp [resetState]

/-- Witness for C5: a reset tick while a transaction with id 7 sits in
`RESP_PENDING` lands in the reset state with no output; a subsequent run
offering only a transaction with id 3 emits nothing correlated to id 7;
and the cleared converter accepts the new transaction. -/
theorem converter_reset_discards_witness :
    op2litex_decoder_reset false true = true ∧
    convStep 9 ⟨ConvState.respPending, some ⟨7, true⟩, 2⟩
      ⟨true, none, false, false⟩ = (resetState, none) ∧
    (∀ r ∈ (convRun 9 resetState
        [⟨false, some ⟨3, false⟩, false, false⟩]).2, r.rid ≠ 7) ∧
    convStep 9 resetState ⟨false, some ⟨3, false⟩, false, false⟩ =
      (⟨ConvState.addrAccepted, some ⟨3, false⟩, 0⟩, none) :=
  ⟨(converter_reset_discards.1 false true rfl).1,
   converter_reset_discards.2.1 9 ⟨ConvState.respPending, some ⟨7, true⟩, 2⟩
     ⟨true, none, false, false⟩ rfl,
   converter_reset_discards.2.2.1 9 7
     [⟨false, some ⟨3, false⟩, false, false⟩] (by decide),
   converter_reset_discards.2.2.2 9 ⟨3, false⟩
     ⟨false, some ⟨3, false⟩, false, false⟩ rfl rfl⟩

/-- The per-tick input of a downstream target that never acknowledges. -/
def noAckIn : ConvIn := ⟨false, none, false, false⟩

theorem convRun_timeout_aux (T : Nat) (t : Txn) :
    ∀ n c : Nat, c + n = T → 1 ≤ n →
      convRun T ⟨ConvState.respPending, some t, c⟩ (List.replicate n noAckIn) =
        (resetState, [ConvResp.downstreamTimeout t.id]) := by
  intro n
  induction n with
  | zero => intro c _ h1; omega
  | succ n ih =>
    intro c hc _
    have hstep := convStep T ⟨ConvState.respPending, some t, c⟩ noAckIn
    by_cases hn : n = 0
    · subst hn
      have hT : T ≤ c + 1 := by omega
      rw [List.replicate_succ, List.replicate_zero, convRun]
      have h1 : convStep T ⟨ConvState.respPending, some t, c⟩ noAckIn =
          (resetState, some (ConvResp.downstreamTimeout t.id)) := by
        unfold convStep
        simp [noAckIn, hT]
      rw [h1]
      simp [convRun]
    · have hT : ¬ T ≤ c + 1 := by omega
      rw [List.replicate_succ, convRun]
      have h1 : convStep T ⟨ConvState.respPending, some t, c⟩ noAckIn =
          (⟨ConvState.respPending, some t, c + 1⟩, none) := by
        unfold convStep
        simp [noAckIn, hT]
      rw [h1]
      have h2 := ih (c + 1) (by omega) (by omega)
      simp only []
      rw [h2]

/-- Claim C6: a wait for a downstream acknowledge is bounded by the
configured `timeout_ticks`: if the downstream target never acknowledges,
then after `timeout_ticks` ticks in `RESP_PENDING` the converter emits
`DownstreamTimeout` for the in-flight transaction and returns to `IDLE`,
after which it accepts a new transaction. -/
theorem converter_bounded_timeout (T : Nat) (t t' : Txn) (hT : 1 ≤ T) :
    convRun T ⟨ConvState.respPending, some t, 0⟩ (List.replicate T noAckIn) =
      (resetState, [ConvResp.downstreamTimeout t.id]) ∧
    convStep T resetState ⟨false, some t', false, false⟩ =
      (⟨ConvState.addrAccepted, some t', 0⟩, none) := by
  constructor
  · exact convRun_timeout_aux T t T 0 (by omega) hT
  · unfold convStep
    simp [resetState]

/-- Witness for C6: with `timeout_ticks = 3`, a transaction with id 5 that
never receives an acknowledge times out after 3 ticks and the converter
then accepts a transaction with id 8. -/
theorem converter_bounded_timeout_witness :
    convRun 3 ⟨ConvState.respPending, some ⟨5, false⟩, 0⟩
        (List.replicate 3 noAckIn) =
      (resetState, [ConvResp.downstreamTimeout 5]) ∧
    convStep 3 resetState ⟨false, some ⟨8, true⟩, false, false⟩ =
      (⟨ConvState.addrAccepted, some ⟨8, true⟩, 0⟩, none) :=
  converter_bounded_timeout 3 ⟨5, false⟩ ⟨8, true⟩ (by decide)

end OpenPiton
